import Mathlib

/-!
Shallow embedding of the value-formatting and database-dump core of
libsql-shell-go (src/src/lib/output.go and src/internal/shellcmd/dump.go),
together with theorems checking the specification claims against it.

Modelling conventions:
* Go channels are modelled as finite lists, one element per received value;
  a `nil` channel is `Option.none`.
* Machine integers are modelled as `Int`/`Nat`; byte slices as `List Nat`
  with values below 256 where it matters.
* Reflection outcomes (`reflect.Kind`, `FieldByName`, `MapIndex`) are made
  explicit inductive data so that the dynamic type switches of `output.go`
  become ordinary pattern matches.
* A Go panic is a terminal outcome `GoEvt.gopanic`, distinct from a returned
  `error` value (`GoEvt.err`); both abort the operation that hit them.
-/

namespace LibsqlShell

/-- Go error values produced or propagated by this core.
`wrapErr m e` models `fmt.Errorf` of the format string `m ++ ": %w"` applied
to `e`; `joinErr` models `errors.Join`; `streamErr` is an opaque error
delivered by the database driver on a statement or row. -/
inductive GoErr where
  | fmtErr (msg : String)
  | wrapErr (msg : String) (e : GoErr)
  | joinErr (e1 e2 : GoErr)
  | streamErr (msg : String)
  | invalidStatementsResult
  | unableToPrintStatementResult
deriving DecidableEq

/-- Terminal outcome of a Go computation: a returned error value or a panic. -/
inductive GoEvt where
  | err (e : GoErr)
  | gopanic (msg : String)
deriving DecidableEq

/-- A `reflect.Value` as seen by `formatRawTypes` (output.go:200-223): its
kind and, for the supported kinds, its content.  `rint` carries the kind
name (`"int64"`, `"uint8"`, ...) because only the error messages depend on
the precise integer kind; `rother` is any kind outside the bool / integer /
string families (floats are not needed by any claim and are left out of the
modelled universe). -/
inductive RawVal where
  | rbool (b : Bool)
  | rint (kindName : String) (n : Int)
  | rstring (s : String)
  | rother (kindName : String)
deriving DecidableEq

/-- Kind name of a raw value, as `reflect.Kind.String()` would print it. -/
def rawKind : RawVal → String
  | .rbool _ => "bool"
  | .rint k _ => k
  | .rstring _ => "string"
  | .rother k => k

/-- `formatRawTypes` (output.go:200-223): bool, the integer kinds and string
render via `fmt.Sprintf "%v"`; every other kind is an error naming it. -/
def formatRawTypes : RawVal → Except GoEvt String
  | .rbool b => .ok (toString b)
  | .rint _ n => .ok (toString n)
  | .rstring s => .ok s
  | .rother k => .error (.err (.fmtErr ("unsupported raw type: " ++ k)))

/-- A `time.Time` as far as the layout `"2006-01-02 15:04:05"` can see it. -/
structure DateTime where
  year : Nat
  month : Nat
  day : Nat
  hour : Nat
  minute : Nat
  second : Nat
deriving DecidableEq

/-- Zero-pad to two digits. -/
def pad2 (n : Nat) : String := if n < 10 then "0" ++ toString n else toString n

/-- Zero-pad to four digits. -/
def pad4 (n : Nat) : String :=
  if n < 10 then "000" ++ toString n
  else if n < 100 then "00" ++ toString n
  else if n < 1000 then "0" ++ toString n
  else toString n

/-- `time.Time.Format "2006-01-02 15:04:05"` (output.go:151). -/
def goTimeFormat (t : DateTime) : String :=
  pad4 t.year ++ "-" ++ pad2 t.month ++ "-" ++ pad2 t.day ++ " " ++
    pad2 t.hour ++ ":" ++ pad2 t.minute ++ ":" ++ pad2 t.second

/-- A field of a wrapper struct: either a value `formatRawTypes` can inspect
or a `time.Time` (for `NullTime.Time`). -/
inductive StructField where
  | raw (r : RawVal)
  | timeVal (t : DateTime)
deriving DecidableEq

/-- A Go struct as `formatStruct` (output.go:126-155) inspects it:
its type name, its `Valid` field (`none` when the struct has no boolean
`Valid` field, `some b` when it has one with value `b`; structs whose
`Valid` field is not a bool would panic in `.Bool()` and are outside the
modelled universe), and its remaining fields accessed by name. -/
structure GoStruct where
  typeName : String
  validField : Option Bool
  fields : List (String × StructField)
deriving DecidableEq

/-- `reflect.Value.FieldByName` on the modelled struct. -/
def structField (s : GoStruct) (n : String) : Option StructField :=
  (s.fields.find? (fun p => p.1 == n)).map (fun p => p.2)

/-- `FieldByName` followed by handing the field to `formatRawTypes`:
a missing field is the invalid zero `reflect.Value` (kind `"invalid"`),
a `time.Time` field has kind `"struct"`. -/
def fieldRaw (s : GoStruct) (n : String) : RawVal :=
  match structField s n with
  | some (.raw r) => r
  | some (.timeVal _) => .rother "struct"
  | none => .rother "invalid"

/-- `formatStruct` (output.go:126-155).  The absence of a `Valid` field is an
error naming the type; an invalid wrapper renders as `"NULL"` before the
type name is ever inspected; otherwise the eight recognized wrapper type
names dispatch on their payload field and anything else is an error naming
the type.  `NullTime` type-asserts its `Time` field to `time.Time` and
panics when that assertion fails. -/
def formatStruct (s : GoStruct) : Except GoEvt String :=
  match s.validField with
  | none =>
      .error (.err (.fmtErr
        ("unsupported struct type: " ++ s.typeName ++ ". missing Valid field")))
  | some false => .ok "NULL"
  | some true =>
      match s.typeName with
      | "NullBool" => formatRawTypes (fieldRaw s "Bool")
      | "NullFloat64" => formatRawTypes (fieldRaw s "Float64")
      | "NullByte" => formatRawTypes (fieldRaw s "Byte")
      | "NullInt16" => formatRawTypes (fieldRaw s "Int16")
      | "NullInt32" => formatRawTypes (fieldRaw s "Int32")
      | "NullInt64" => formatRawTypes (fieldRaw s "Int64")
      | "NullString" => formatRawTypes (fieldRaw s "String")
      | "NullTime" =>
          match structField s "Time" with
          | some (.timeVal t) => .ok (goTimeFormat t)
          | _ => .error (.gopanic "interface conversion: interface is not time.Time")
      | _ => .error (.err (.fmtErr ("unsupported struct type: " ++ s.typeName)))

/-- The dynamic value boxed in an interface-typed map element, as far as
`formatMap` inspects it: `bnil` is the nil interface, `bstring` a string,
`bother` anything else (only the kind matters). -/
inductive BoxedVal where
  | bnil
  | bstring (s : String)
  | bother (kindName : String)
deriving DecidableEq

/-- An element of a string-keyed Go map as `formatMap` (output.go:165-182)
sees it through `MapIndex`: the element's static type is an interface type
(`interfaceElem`), `string` (`stringElem`), or an integer type (`intElem`,
standing in for the remaining static element kinds). -/
inductive MapElem where
  | interfaceElem (v : BoxedVal)
  | stringElem (s : String)
  | intElem (n : Int)
deriving DecidableEq

/-- `reflect.Value.MapIndex` over the modelled map: `none` is the invalid
zero `reflect.Value` returned for a missing key. -/
def mapLookup (entries : List (String × MapElem)) (k : String) : Option MapElem :=
  (entries.find? (fun p => p.1 == k)).map (fun p => p.2)

/-- `reflect.Value.IsZero` on a present map element: an interface element is
zero exactly when it is the nil interface, a string element when it is
empty, an integer element when it is zero. -/
def elemIsZero : MapElem → Bool
  | .interfaceElem .bnil => true
  | .interfaceElem _ => false
  | .stringElem s => s == ""
  | .intElem n => n == 0

/-- One driver-returned column value as `formatValue` (output.go:103-124)
classifies it: the nil interface, a raw scalar, a byte slice, a non-byte
slice (only its type name matters), a struct, or a string-keyed map. -/
inductive GoValue where
  | vnull
  | vraw (r : RawVal)
  | vbytes (bs : List Nat)
  | vsliceOther (typeName : String)
  | vstruct (s : GoStruct)
  | vmap (entries : List (String × MapElem))
deriving DecidableEq

/-- Shorthand for a plain string value. -/
def vstr (s : String) : GoValue := .vraw (.rstring s)

/-- The single-quote character, kept out of the literals of this file. -/
def sq : String := String.mk [Char.ofNat 39]

/-- The standard base64 alphabet of `encoding/base64.StdEncoding`. -/
def alphabet : List Char :=
  "ABCDEFGHIJKLMNOPQRSTUVWXYZabcdefghijklmnopqrstuvwxyz0123456789+/".data

/-- The alphabet character of a 6-bit value. -/
def encChar (n : Nat) : Char := alphabet.getD n (Char.ofNat 65)

/-- The decode map of the standard alphabet: `some` 6-bit value for an
alphabet character, `none` (`0xff` in Go) otherwise. -/
def decChar (c : Char) : Option Nat := alphabet.findIdx? (fun a => a == c)

/-- `base64.CorruptInputError n` as an error value
(its `Error()` text names the offending input byte offset). -/
def corruptInputError (n : Nat) : GoErr :=
  .fmtErr ("illegal base64 data at input byte " ++ toString n)

/-- The bytes of one final base64 quantum of 2, 3 or 4 collected 6-bit
digits (Go fills the missing digits of a short final quantum with zeroes
and emits one byte fewer per missing digit; unused trailing bits are not
validated in non-strict mode). -/
def quantumBytes (q : List Nat) : List Nat :=
  match q with
  | [] => []
  | [_] => []
  | [d1, d2] => [d1 * 4 + d2 / 16]
  | [d1, d2, d3] => [d1 * 4 + d2 / 16, d2 % 16 * 16 + d3 / 4]
  | d1 :: d2 :: d3 :: d4 :: _ =>
      [d1 * 4 + d2 / 16, d2 % 16 * 16 + d3 / 4, d3 % 4 * 64 + d4]

/-- The decode loop of `base64.Encoding.Decode` for
`StdEncoding.WithPadding(NoPadding)`: alphabet characters are collected
four at a time into quanta, `\n` and `\r` are skipped, any other character
is a `CorruptInputError` at its input offset, and a final quantum of a
single digit is a `CorruptInputError` at the last offset.  `si` is the
current input offset and `q` the digits of the current quantum. -/
def decodeLoop : List Char → Nat → List Nat → Except GoErr (List Nat)
  | [], si, q =>
      if q.length = 1 then .error (corruptInputError (si - 1))
      else .ok (quantumBytes q)
  | c :: rest, si, q =>
      match decChar c with
      | some d =>
          if (q ++ [d]).length = 4 then
            match decodeLoop rest (si + 1) [] with
            | .error e => .error e
            | .ok tail => .ok (quantumBytes (q ++ [d]) ++ tail)
          else decodeLoop rest (si + 1) (q ++ [d])
      | none =>
          if c = Char.ofNat 10 ∨ c = Char.ofNat 13 then decodeLoop rest (si + 1) q
          else .error (corruptInputError si)

/-- `base64.StdEncoding.WithPadding(base64.NoPadding).Decode` on a whole
input, returning the decoded bytes or the first decode error. -/
def goBase64Decode (cs : List Char) : Except GoErr (List Nat) :=
  decodeLoop cs 0 []

/-- `Encoding.DecodedLen` for a no-padding encoding: `n * 6 / 8`. -/
def decodedLen (n : Nat) : Nat := n * 6 / 8

/-- An uppercase hexadecimal digit. -/
def hexDigit (n : Nat) : Char := "0123456789ABCDEF".data.getD n (Char.ofNat 48)

/-- One byte as two uppercase hexadecimal digits, as `%X` prints it. -/
def hexByte (n : Nat) : String := String.mk [hexDigit (n / 16 % 16), hexDigit (n % 16)]

/-- `formatBytes` (output.go:196-198): `fmt.Sprintf "0x%X"` of a byte
slice, i.e. `0x` followed by two uppercase hex digits per byte. -/
def formatBytes (bs : List Nat) : String :=
  "0x" ++ String.join (bs.map hexByte)

/-- `decodeBase64ToHex` (output.go:184-194).  The destination buffer is
allocated with `DecodedLen` of the full input length and the whole buffer —
not just the `n` bytes actually written — is handed to `formatBytes`, so
any skipped newline characters leave trailing zero bytes in the rendered
blob.  A decode error is joined with the fixed context message. -/
def decodeBase64ToHex (base64String : String) : Except GoEvt String :=
  match goBase64Decode base64String.data with
  | .error e => .error (.err (.joinErr (.fmtErr "unable to decode base64 value") e))
  | .ok bs =>
      .ok (formatBytes (bs ++ List.replicate (decodedLen base64String.data.length - bs.length) 0))

/-- The standard no-padding base64 encoding of a byte sequence (the inverse
direction, used to state the round-trip claim; not part of the source). -/
def encodeNoPad : List Nat → List Char
  | [] => []
  | [a] => [encChar (a / 4), encChar (a % 4 * 16)]
  | [a, b] => [encChar (a / 4), encChar (a % 4 * 16 + b / 16), encChar (b % 16 * 4)]
  | a :: b :: c :: rest =>
      encChar (a / 4) :: encChar (a % 4 * 16 + b / 16) ::
        encChar (b % 16 * 4 + c / 64) :: encChar (c % 64) :: encodeNoPad rest

/-- `formatMap` (output.go:165-182): look up the `"base64"` key, test the
result with `reflect.Value.IsZero` — which panics on the invalid zero
`reflect.Value` produced by a missing key — then accept a string directly
or boxed in an interface and decode it; any other element kind is an
error. -/
def formatMap (entries : List (String × MapElem)) : Except GoEvt String :=
  match mapLookup entries "base64" with
  | none => .error (.gopanic "reflect: call of reflect.Value.IsZero on zero Value")
  | some el =>
      if elemIsZero el then
        .error (.err (.fmtErr ("unsupported map: no \"base64\" field")))
      else
        match el with
        | .interfaceElem (.bstring s) => decodeBase64ToHex s
        | .stringElem s => decodeBase64ToHex s
        | _ => .error (.err (.fmtErr ("unsupported map. unsupported \"base64\" field kind")))

/-- `formatValue` (output.go:103-124): nil renders as `"NULL"`; struct,
slice and map kinds dispatch to their formatters (`formatSlice` is inlined
here: a byte slice renders via `formatBytes`, any other slice is an error
naming its type); every remaining kind goes through `formatRawTypes`, whose
error is replaced by one naming the kind. -/
def formatValue : GoValue → Except GoEvt String
  | .vnull => .ok "NULL"
  | .vstruct s => formatStruct s
  | .vbytes bs => .ok (formatBytes bs)
  | .vsliceOther tn => .error (.err (.fmtErr ("unsupported slice: " ++ tn)))
  | .vmap entries => formatMap entries
  | .vraw r =>
      match formatRawTypes r with
      | .error _ => .error (.err (.fmtErr ("unsupported type: " ++ rawKind r)))
      | .ok s => .ok s

/-- `formatData` (output.go:91-101): format every value of a row in order,
stopping at the first failure. -/
def formatData : List GoValue → Except GoEvt (List String)
  | [] => .ok []
  | v :: rest =>
      match formatValue v with
      | .error e => .error e
      | .ok s =>
          match formatData rest with
          | .error e => .error e
          | .ok tail => .ok (s :: tail)

/-- One element of a row channel: the row values and the error slot. -/
structure RowResult where
  row : List GoValue
  err : Option GoErr
deriving DecidableEq

/-- One element of a statement-result channel: the error slot, the column
names, and the row channel (`none` models a nil channel). -/
structure StatementResult where
  err : Option GoErr
  columnNames : List String
  rowCh : Option (List RowResult)
deriving DecidableEq

/-- The result of `ExecuteStatements`: a channel of statement results
(`none` models a nil channel). -/
structure StatementsResult where
  statementResultCh : Option (List StatementResult)
deriving DecidableEq

/-- What `PrintStatementResult` writes to its output sink: the single
rendered text table produced by `tablewriter` at `Render` time (the
rendering library is an external collaborator, so the table is kept
abstract as its header and formatted rows). -/
inductive OutLine where
  | renderTable (header : Option (List String)) (rows : List (List String))
deriving DecidableEq

/-- The row-consuming loop of `PrintStatementResult` (output.go:47-57):
each row aborts on its error slot, then on a formatting failure, and is
otherwise appended to the in-memory table. -/
def collectRows : List RowResult → Except GoEvt (List (List String))
  | [] => .ok []
  | r :: rest =>
      match r.err with
      | some e => .error (.err e)
      | none =>
          match formatData r.row with
          | .error ev => .error ev
          | .ok fr =>
              match collectRows rest with
              | .error ev => .error ev
              | .ok tail => .ok (fr :: tail)

/-- `PrintStatementResult` (output.go:33-61): a nil row channel is the
protocol error; an empty column-name list is a silent no-op; otherwise the
rows are buffered in the `tablewriter` table and the table is rendered to
the sink only after the whole row stream was consumed without error.
Returns the written output and the error outcome. -/
def PrintStatementResult (sr : StatementResult) (withoutHeader : Bool) :
    List OutLine × Option GoEvt :=
  match sr.rowCh with
  | none => ([], some (.err .unableToPrintStatementResult))
  | some rows =>
      if sr.columnNames = [] then ([], none)
      else
        match collectRows rows with
        | .error e => ([], some e)
        | .ok frows =>
            ([.renderTable (if withoutHeader then none else some sr.columnNames) frows],
              none)

/-- The statement-consuming loop of `PrintStatementsResult`
(output.go:20-29). -/
def printStatementsLoop : List StatementResult → Bool → List OutLine × Option GoEvt
  | [], _ => ([], none)
  | sr :: rest, wh =>
      match sr.err with
      | some e => ([], some (.err e))
      | none =>
          let p := PrintStatementResult sr wh
          match p.2 with
          | some e => (p.1, some e)
          | none =>
              let q := printStatementsLoop rest wh
              (p.1 ++ q.1, q.2)

/-- `PrintStatementsResult` (output.go:15-31): a nil statement channel is
the protocol error; otherwise each statement result is checked for its
error and printed, stopping at the first failure. -/
def PrintStatementsResult (s : StatementsResult) (withoutHeader : Bool) :
    List OutLine × Option GoEvt :=
  match s.statementResultCh with
  | none => ([], some (.err .invalidStatementsResult))
  | some srs => printStatementsLoop srs withoutHeader

/-- Modelled from the spec (§4.2): `db.NeedsEscaping`, whose source lives in
the `internal/db` package that is not part of the provided sources — true
exactly when the identifier contains a single-quote character. -/
def NeedsEscaping (s : String) : Bool := s.data.contains (Char.ofNat 39)

/-- Modelled from the spec (§4.2): `db.EscapeSingleQuotes`, whose source
lives in the `internal/db` package that is not part of the provided sources
— every single quote is doubled. -/
def EscapeSingleQuotes (s : String) : String :=
  String.mk (s.data.flatMap (fun c => if c = Char.ofNat 39 then [c, c] else [c]))

/-- The two formatting modes of the `internal/db` package. -/
inductive Mode where
  | tableMode
  | sqliteMode
deriving DecidableEq

/-- Modelled from the spec (§4.1): `db.FormatData`, whose source lives in
the `internal/db` package that is not part of the provided sources.  The
spec gives a single classification algorithm for both modes (the rendering
rules 1-7 do not depend on the mode; quoting differences are the caller's
responsibility), so both modes format like the `lib` formatter. -/
def FormatData (row : List GoValue) (_mode : Mode) : Except GoEvt (List String) :=
  formatData row

/-- The table-enumeration query text of `getDbTableNames` (dump.go:100). -/
def tableNamesQuery : String :=
  "SELECT name FROM sqlite_master WHERE type=" ++ sq ++ "table" ++ sq ++
    " and name not like " ++ sq ++ "sqlite_%" ++ sq ++
    " and name != " ++ sq ++ "_litestream_seq" ++ sq ++
    " and name != " ++ sq ++ "_litestream_lock" ++ sq ++
    " and name != " ++ sq ++ "libsql_wasm_func_table" ++ sq

/-- The per-table schema query text of `getTableSchema` (dump.go:116). -/
def schemaQueryStr (tableName : String) : String :=
  "SELECT type, sql || " ++ sq ++ ";" ++ sq ++ " FROM sqlite_master WHERE TBL_NAME=" ++
    sq ++ EscapeSingleQuotes tableName ++ sq

/-- The per-table data query text of `getTableRecords` (dump.go:156). -/
def recordsQueryStr (tableName : String) : String :=
  "SELECT * FROM " ++ sq ++ EscapeSingleQuotes tableName ++ sq

/-- The database collaborator as the dump code uses it: `ExecuteStatements`
maps a query text to a statements result or an immediate error. -/
structure DbCmdConfig where
  execute : String → Except GoErr StatementsResult

/-- The zero value of `db.StatementResult`. -/
def zeroStatementResult : StatementResult := ⟨none, [], none⟩

/-- A receive `<-ch` from a statement-result channel: the first element, or
the zero value once the closed channel is drained.  (A receive from a nil
channel blocks forever in Go; no claim exercises that corner and it is
approximated by the same zero value.) -/
def recvStatementResult (ch : Option (List StatementResult)) : StatementResult :=
  (ch.getD []).headD zeroStatementResult

/-- Events observable from the dump code, in order: a value pulled from the
table-name row stream, a query handed to `ExecuteStatements`, and a line
written to the output sink by `fmt.Fprintln`. -/
inductive DumpEvt where
  | readName (r : RowResult)
  | execQuery (q : String)
  | emitLine (s : String)
deriving DecidableEq

/-- The row loop of `getTableSchema` (dump.go:127-148), carrying the
`createTable` and `otherStmts` accumulators.  On a row whose error slot is
set, the source returns `statementResult.Err` — which was already checked
to be nil — instead of the row's own error, so that path succeeds with the
zero values `("", nil)`.  A formatting failure is wrapped with the context
message `failed to format data`; a row that does not format to exactly two
columns is its own error; a `"table"` row replaces the `createTable`
accumulator and every other row is appended to `otherStmts`. -/
def schemaLoop : List RowResult → String → List String → Except GoEvt (String × List String)
  | [], ct, others => .ok (ct, others)
  | r :: rest, ct, others =>
      match r.err with
      | some _ => .ok ("", [])
      | none =>
          match FormatData r.row Mode.tableMode with
          | .error (.gopanic m) => .error (.gopanic m)
          | .error (.err e) => .error (.err (.wrapErr "failed to format data" e))
          | .ok formatted =>
              if formatted.length = 2 then
                let kind := formatted.getD 0 ""
                let sqlTxt := formatted.getD 1 ""
                if kind = "table" then schemaLoop rest sqlTxt others
                else schemaLoop rest ct (others ++ [sqlTxt])
              else
                .error (.err (.fmtErr ("expected 2 columns, got " ++ toString formatted.length)))

/-- `getTableSchema` (dump.go:113-151): run the schema query, receive its
single statement result, check its error, then fold the row stream with
`schemaLoop`.  Returns the trace of events next to the result. -/
def getTableSchema (cfg : DbCmdConfig) (tableName : String) :
    List DumpEvt × Except GoEvt (String × List String) :=
  let q := schemaQueryStr tableName
  ([.execQuery q],
    match cfg.execute q with
    | .error e => .error (.err e)
    | .ok tir =>
        let sres := recvStatementResult tir.statementResultCh
        match sres.err with
        | some e => .error (.err e)
        | none => schemaLoop (sres.rowCh.getD []) "" [])

/-- `getTableRecords` (dump.go:153-168): run the data query, receive its
single statement result and check its error. -/
def getTableRecords (cfg : DbCmdConfig) (tableName : String) :
    List DumpEvt × Except GoEvt StatementResult :=
  let q := recordsQueryStr tableName
  ([.execQuery q],
    match cfg.execute q with
    | .error e => .error (.err e)
    | .ok trr =>
        let sres := recvStatementResult trr.statementResultCh
        match sres.err with
        | some e => .error (.err e)
        | none => .ok sres)

/-- The quoted-or-bare table name used in generated INSERT statements
(dump.go:80-83). -/
def insertTableName (tn : String) : String :=
  if NeedsEscaping tn then sq ++ EscapeSingleQuotes tn ++ sq else tn

/-- The row loop of `dumpTableRecords` (dump.go:75-94): abort on a row
error or formatting failure, otherwise emit one INSERT line per row. -/
def recordsLoop : List RowResult → String → List DumpEvt × Option GoEvt
  | [], _ => ([], none)
  | r :: rest, tn =>
      match r.err with
      | some e => ([], some (.err e))
      | none =>
          match FormatData r.row Mode.sqliteMode with
          | .error e => ([], some e)
          | .ok frow =>
              let line := "INSERT INTO " ++ insertTableName tn ++ " VALUES (" ++
                String.intercalate ", " frow ++ ");"
              let d := recordsLoop rest tn
              (.emitLine line :: d.1, d.2)

/-- `dumpTableRecords` (dump.go:74-97). -/
def dumpTableRecords (sres : StatementResult) (tableName : String) :
    List DumpEvt × Option GoEvt :=
  recordsLoop (sres.rowCh.getD []) tableName

/-- The table loop of `dumpTables` (dump.go:38-69): pull one name from the
table-name row stream, then fully process that table — schema query, a
`Fprintln` of the create statement (empty or not), data query, INSERT
emission, deferred auxiliary DDL emission — before pulling the next name.
`formattedRow[0]` on an empty formatted row panics. -/
def tablesLoop : List RowResult → DbCmdConfig → List DumpEvt × Option GoEvt
  | [], _ => ([], none)
  | r :: rest, cfg =>
      match r.err with
      | some e => ([.readName r], some (.err e))
      | none =>
          match FormatData r.row Mode.tableMode with
          | .error e => ([.readName r], some e)
          | .ok frow =>
              match frow with
              | [] =>
                  ([.readName r],
                    some (.gopanic "runtime error: index out of range [0] with length 0"))
              | ftn :: _ =>
                  let gs := getTableSchema cfg ftn
                  match gs.2 with
                  | .error e => (.readName r :: gs.1, some e)
                  | .ok (ct, others) =>
                      let gr := getTableRecords cfg ftn
                      match gr.2 with
                      | .error e =>
                          (.readName r :: gs.1 ++ [.emitLine ct] ++ gr.1, some e)
                      | .ok recSres =>
                          let gd := dumpTableRecords recSres ftn
                          match gd.2 with
                          | some e =>
                              (.readName r :: gs.1 ++ [.emitLine ct] ++ gr.1 ++ gd.1, some e)
                          | none =>
                              let t := tablesLoop rest cfg
                              (.readName r :: gs.1 ++ [.emitLine ct] ++ gr.1 ++ gd.1 ++
                                  others.map .emitLine ++ t.1,
                                t.2)

/-- `dumpTables` (dump.go:37-72). -/
def dumpTables (sres : StatementResult) (cfg : DbCmdConfig) :
    List DumpEvt × Option GoEvt :=
  tablesLoop (sres.rowCh.getD []) cfg

/-- `getDbTableNames` (dump.go:99-111): run the enumeration query and
receive (blocking) its single statement result; the row stream itself is
NOT consumed here. -/
def getDbTableNames (cfg : DbCmdConfig) : List DumpEvt × Except GoEvt StatementResult :=
  ([.execQuery tableNamesQuery],
    match cfg.execute tableNamesQuery with
    | .error e => .error (.err e)
    | .ok ltr =>
        let sres := recvStatementResult ltr.statementResultCh
        match sres.err with
        | some e => .error (.err e)
        | none => .ok sres)

/-- The body of the `.dump` command (dump.go:15-34): preamble pragma, table
enumeration, then `dumpTables`. -/
def dumpRunE (cfg : DbCmdConfig) : List DumpEvt × Option GoEvt :=
  let pre : List DumpEvt := [.emitLine "PRAGMA foreign_keys=OFF;"]
  let g := getDbTableNames cfg
  match g.2 with
  | .error e => (pre ++ g.1, some e)
  | .ok sres =>
      let d := dumpTables sres cfg
      (pre ++ g.1 ++ d.1, d.2)

/-! Scaffolding for stating the dump claims: a description of one table as
the database serves it, the statement results such a table produces, and
the trace the dump is expected to leave. -/

/-- One table as the database answers the dump's two per-table queries:
the (formatted) table name, the `(type, sql)` pairs returned by the schema
query in order, and the data rows returned by the `SELECT *` query in
order. -/
structure TableSpec where
  name : String
  schemaPairs : List (String × String)
  dataRows : List (List GoValue)
deriving DecidableEq

/-- An error-free row of the table-name enumeration result. -/
def nameRowOf (n : String) : RowResult := ⟨[vstr n], none⟩

/-- An error-free two-column row of the schema query result. -/
def schemaRowOf (p : String × String) : RowResult := ⟨[vstr p.1, vstr p.2], none⟩

/-- An error-free data row. -/
def dataRowOf (r : List GoValue) : RowResult := ⟨r, none⟩

/-- The statement result the schema query of `td` produces. -/
def schemaStatementOf (td : TableSpec) : StatementResult :=
  ⟨none, [], some (td.schemaPairs.map schemaRowOf)⟩

/-- The statement result the data query of `td` produces. -/
def recordsStatementOf (td : TableSpec) : StatementResult :=
  ⟨none, [], some (td.dataRows.map dataRowOf)⟩

/-- The database serves table `td`: its two per-table queries answer with
the statement results above. -/
def servesTable (cfg : DbCmdConfig) (td : TableSpec) : Prop :=
  cfg.execute (schemaQueryStr td.name) = .ok ⟨some [schemaStatementOf td]⟩ ∧
    cfg.execute (recordsQueryStr td.name) = .ok ⟨some [recordsStatementOf td]⟩

/-- A concrete database serving exactly the given tables (used by the
concrete witnesses and counterexamples). -/
def cfgOf (tds : List TableSpec) : DbCmdConfig :=
  ⟨fun q =>
    match tds.find? (fun td => q == schemaQueryStr td.name) with
    | some td => .ok ⟨some [schemaStatementOf td]⟩
    | none =>
        match tds.find? (fun td => q == recordsQueryStr td.name) with
        | some td => .ok ⟨some [recordsStatementOf td]⟩
        | none => .error (.fmtErr "no such table")⟩

/-- The `createTable` accumulator `schemaLoop` ends with: the sql of the
last `"table"`-kind pair, or the starting value when there is none. -/
def lastTableD : List (String × String) → String → String
  | [], ct => ct
  | p :: rest, ct => lastTableD rest (if p.1 = "table" then p.2 else ct)

/-- The sql texts of the non-`"table"` pairs, in order. -/
def nonTableSqls (ps : List (String × String)) : List String :=
  (ps.filter (fun p => p.1 != "table")).map (fun p => p.2)

/-- The create statement the dump emits for `td` (empty when the schema
query returned no `"table"` row). -/
def createOf (td : TableSpec) : String := lastTableD td.schemaPairs ""

/-- The auxiliary DDL statements the dump defers for `td`. -/
def auxOf (td : TableSpec) : List String := nonTableSqls td.schemaPairs

/-- The formatted row of a data row whose formatting succeeds. -/
def fmtRowD (r : List GoValue) : List String :=
  match formatData r with
  | .ok out => out
  | .error _ => []

/-- The INSERT line emitted for one data row of `td`. -/
def insertLineFor (tn : String) (vals : List String) : String :=
  "INSERT INTO " ++ insertTableName tn ++ " VALUES (" ++
    String.intercalate ", " vals ++ ");"

/-- The INSERT lines the dump emits for `td`, in row order. -/
def insertsOf (td : TableSpec) : List String :=
  td.dataRows.map (fun r => insertLineFor td.name (fmtRowD r))

/-- The event block one table contributes to the dump trace: its name is
pulled, its schema query runs, its create statement is printed, its data
query runs, its INSERT lines are printed, and finally its deferred
auxiliary DDL is printed. -/
def tableBlockTrace (td : TableSpec) : List DumpEvt :=
  .readName (nameRowOf td.name) :: .execQuery (schemaQueryStr td.name) ::
    .emitLine (createOf td) :: .execQuery (recordsQueryStr td.name) ::
    ((insertsOf td).map .emitLine ++ (auxOf td).map .emitLine)

/-- The lines a trace writes to the output sink, in order. -/
def emittedLines (tr : List DumpEvt) : List String :=
  tr.filterMap (fun e => match e with | .emitLine s => some s | _ => none)

/-- Whether an event is a pull from the table-name row stream. -/
def isReadName : DumpEvt → Bool
  | .readName _ => true
  | _ => false

/-- The formalization of claim C3 on a trace: every pull from the
table-name row stream happens before any other dump event, i.e. the reads
form a prefix of the trace. -/
def enumerationFirst (tr : List DumpEvt) : Bool :=
  !((tr.dropWhile isReadName).any isReadName)

/-! Claim theorems. -/

/-- A database whose schema query for table `t` answers with a single
statement whose row stream carries an error in its first element. -/
def cfgC1 : DbCmdConfig :=
  ⟨fun q =>
    if q == schemaQueryStr "t" then
      .ok ⟨some [⟨none, [], some [⟨[], some (.streamErr "boom")⟩]⟩]⟩
    else .error (.fmtErr "unexpected query")⟩

/-- Claim C1: every layer stops at the first stream or formatting error and
returns exactly that error unchanged.  The code contradicts this:
`getTableSchema` (dump.go:127-130) returns `statementResult.Err` — already
known to be nil — instead of the failing row's `statementRowResult.Err`, so
a row-stream error during the schema query is swallowed and the function
succeeds with an empty create statement and no auxiliary DDL.  This theorem
evaluates the embedded `getTableSchema` at such an input. -/
theorem claim_C1_getTableSchema_swallows_row_error :
    getTableSchema cfgC1 "t" =
      ([.execQuery (schemaQueryStr "t")], .ok ("", [])) := rfl

/-- Claim C4: a map without a `"base64"` entry is claimed to yield a
`FormatError` and never crash.  The code contradicts this: `formatMap`
(output.go:166-167) calls `reflect.Value.IsZero` on the result of
`MapIndex`, which for a missing key is the invalid zero `reflect.Value`,
and `IsZero` panics on an invalid value.  This theorem evaluates the
embedded formatter at such a map. -/
theorem claim_C4_missing_base64_panics :
    formatValue (.vmap [("data", .stringElem "x")]) =
      .error (.gopanic "reflect: call of reflect.Value.IsZero on zero Value") := rfl

/-- Claim C6: a nullable wrapper whose validity flag is false renders as
`"NULL"` regardless of its type name and payload fields, including payloads
that would themselves fail to format (output.go:131-133 returns before the
type name or any payload field is inspected). -/
theorem claim_C6_invalid_wrapper_is_null (name : String)
    (fs : List (String × StructField)) :
    formatValue (.vstruct ⟨name, some false, fs⟩) = .ok "NULL" := rfl

/-- Claim C7 counterexample: the claim demands a `FormatError` for every
wrapper whose declared kind is unrecognized, but a wrapper of unrecognized
type `NullFoo` with a false validity flag renders as `"NULL"` (the validity
check of output.go:131 precedes the type-name switch), so the claim as
stated is false. -/
theorem claim_C7_counterexample :
    formatValue (.vstruct ⟨"NullFoo", some false, []⟩) = .ok "NULL" ∧
      ∀ e : GoEvt, formatValue (.vstruct ⟨"NullFoo", some false, []⟩) ≠ .error e := by
  refine ⟨rfl, ?_⟩
  intro e h
  simp [formatValue, formatStruct] at h

/-- Claim C7 (amended): a nullable wrapper whose validity flag is TRUE and
whose declared kind is not one of the eight recognized kinds formats to a
`FormatError` naming the unsupported type (output.go:152-153). -/
theorem claim_C7_amended_unrecognized_valid_wrapper_errors (name : String)
    (fs : List (String × StructField))
    (hname : name ∉ ["NullBool", "NullFloat64", "NullByte", "NullInt16",
      "NullInt32", "NullInt64", "NullString", "NullTime"]) :
    formatValue (.vstruct ⟨name, some true, fs⟩) =
      .error (.err (.fmtErr ("unsupported struct type: " ++ name))) := by
  simp only [formatValue, formatStruct]
  split
  all_goals simp_all

/-- Witness for the amended claim C7 at the concrete type name
`Whatever`. -/
theorem claim_C7_amended_witness :
    ("Whatever" ∉ ["NullBool", "NullFloat64", "NullByte", "NullInt16",
        "NullInt32", "NullInt64", "NullString", "NullTime"]) ∧
      formatValue (.vstruct ⟨"Whatever", some true, []⟩) =
        .error (.err (.fmtErr ("unsupported struct type: " ++ "Whatever"))) :=
  ⟨by decide, claim_C7_amended_unrecognized_valid_wrapper_errors "Whatever" [] (by decide)⟩

/-- Claim C8 counterexample: the claim says every statement result with an
empty column-name list prints nothing and returns no error, but a statement
result whose row channel is nil (and whose column list is empty) returns
the protocol error `UnableToPrintStatementResult` — the nil-channel check
of output.go:34-36 precedes the zero-column check. -/
theorem claim_C8_counterexample :
    (PrintStatementResult ⟨none, [], none⟩ false).2 =
        some (.err .unableToPrintStatementResult) ∧
      ¬ (PrintStatementResult ⟨none, [], none⟩ false).2 = none := by
  decide

/-- Claim C8 (amended): every statement result with a non-nil row channel
and an empty column-name list makes `PrintStatementResult` write nothing
and return no error (output.go:38-40). -/
theorem claim_C8_amended_zero_columns_noop (e : Option GoErr)
    (rows : List RowResult) (wh : Bool) :
    PrintStatementResult ⟨e, [], some rows⟩ wh = ([], none) := rfl

/-- A row result that succeeds: no error slot and a row whose every value
formats. -/
def rowOk (p : RowResult) : Prop :=
  p.err = none ∧ ∃ out, formatData p.row = .ok out

/-- `collectRows` over rows that all succeed yields exactly their formatted
rows. -/
theorem collectRows_ok (rows : List RowResult) (h : ∀ p ∈ rows, rowOk p) :
    collectRows rows = .ok (rows.map (fun p => fmtRowD p.row)) := by
  induction rows with
  | nil => rfl
  | cons r rest ih =>
      obtain ⟨herr, out, hout⟩ := h r (List.mem_cons_self r rest)
      simp only [collectRows, herr, hout, ih (fun p hp => h p (List.mem_cons_of_mem r hp)),
        List.map_cons, fmtRowD]

/-- `collectRows` stops at the first row whose error slot is set and
returns that error. -/
theorem collectRows_row_error (pre : List RowResult) (r : RowResult)
    (rest : List RowResult) (e : GoErr) (hpre : ∀ p ∈ pre, rowOk p)
    (hr : r.err = some e) :
    collectRows (pre ++ r :: rest) = .error (.err e) := by
  induction pre with
  | nil => simp only [List.nil_append, collectRows, hr]
  | cons p ps ih =>
      obtain ⟨herr, out, hout⟩ := hpre p (List.mem_cons_self p ps)
      simp only [List.cons_append, collectRows, herr, hout, List.append_eq,
        ih (fun q hq => hpre q (List.mem_cons_of_mem p hq))]

/-- `collectRows` stops at the first row whose formatting fails and returns
that failure. -/
theorem collectRows_format_error (pre : List RowResult) (r : RowResult)
    (rest : List RowResult) (ev : GoEvt) (hpre : ∀ p ∈ pre, rowOk p)
    (hr : r.err = none) (hfmt : formatData r.row = .error ev) :
    collectRows (pre ++ r :: rest) = .error ev := by
  induction pre with
  | nil => simp only [List.nil_append, collectRows, hr, hfmt]
  | cons p ps ih =>
      obtain ⟨herr, out, hout⟩ := hpre p (List.mem_cons_self p ps)
      simp only [List.cons_append, collectRows, herr, hout, List.append_eq,
        ih (fun q hq => hpre q (List.mem_cons_of_mem p hq))]

/-- Claim C10: on a non-empty column list, (1) a row-stream error and (2) a
value that fails formatting each make `PrintStatementResult` return exactly
that error with nothing written to the sink, and (3) the buffered table is
rendered only once the whole row stream was consumed without error. -/
theorem claim_C10_error_before_render :
    (∀ (serr : Option GoErr) (cols : List String) (wh : Bool)
        (pre : List RowResult) (r : RowResult) (rest : List RowResult) (e : GoErr),
      cols ≠ [] → (∀ p ∈ pre, rowOk p) → r.err = some e →
      PrintStatementResult ⟨serr, cols, some (pre ++ r :: rest)⟩ wh =
        ([], some (.err e))) ∧
    (∀ (serr : Option GoErr) (cols : List String) (wh : Bool)
        (pre : List RowResult) (r : RowResult) (rest : List RowResult) (ev : GoEvt),
      cols ≠ [] → (∀ p ∈ pre, rowOk p) → r.err = none →
      formatData r.row = .error ev →
      PrintStatementResult ⟨serr, cols, some (pre ++ r :: rest)⟩ wh =
        ([], some ev)) ∧
    (∀ (serr : Option GoErr) (cols : List String) (wh : Bool)
        (rows : List RowResult),
      cols ≠ [] → (∀ p ∈ rows, rowOk p) →
      PrintStatementResult ⟨serr, cols, some rows⟩ wh =
        ([.renderTable (if wh then none else some cols)
            (rows.map (fun p => fmtRowD p.row))], none)) := by
  refine ⟨?_, ?_, ?_⟩
  · intro serr cols wh pre r rest e hcols hpre hr
    simp [PrintStatementResult, collectRows_row_error pre r rest e hpre hr, hcols]
  · intro serr cols wh pre r rest ev hcols hpre hr hfmt
    simp [PrintStatementResult, collectRows_format_error pre r rest ev hpre hr hfmt, hcols]
  · intro serr cols wh rows hcols hrows
    simp [PrintStatementResult, collectRows_ok rows hrows, hcols]

/-- Witness for claim C10 at concrete inputs: one successfully formatted
row followed by a row carrying a stream error. -/
theorem claim_C10_witness :
    (["a"] ≠ ([] : List String)) ∧
      (∀ p ∈ [(⟨[.vnull], none⟩ : RowResult)], rowOk p) ∧
      PrintStatementResult
          ⟨none, ["a"], some [⟨[.vnull], none⟩, ⟨[], some (.streamErr "boom")⟩]⟩ false =
        ([], some (.err (.streamErr "boom"))) := by
  refine ⟨by decide, ?_, ?_⟩
  · intro p hp
    simp only [List.mem_singleton] at hp
    exact hp ▸ ⟨rfl, ["NULL"], rfl⟩
  · exact claim_C10_error_before_render.1 none ["a"] false
      [⟨[.vnull], none⟩] ⟨[], some (.streamErr "boom")⟩ [] (.streamErr "boom")
      (by decide)
      (fun p hp => by
        simp only [List.mem_singleton] at hp
        exact hp ▸ ⟨rfl, ["NULL"], rfl⟩)
      rfl

/-- Every 6-bit value decodes back to itself through the standard
alphabet. -/
theorem decChar_encChar : ∀ d < 64, decChar (encChar d) = some d := by decide

/-- The decode loop inverts the no-padding encoding of any byte
sequence. -/
theorem decodeLoop_encodeNoPad :
    ∀ b : List Nat, (∀ x ∈ b, x < 256) →
      ∀ si, decodeLoop (encodeNoPad b) si [] = .ok b := by
  intro b
  induction b using encodeNoPad.induct with
  | case1 => intro _ si; rfl
  | case2 a =>
      intro hb si
      have ha : a < 256 := hb a (by simp)
      have h1 : decChar (encChar (a / 4)) = some (a / 4) :=
        decChar_encChar _ (by omega)
      have h2 : decChar (encChar (a % 4 * 16)) = some (a % 4 * 16) :=
        decChar_encChar _ (by omega)
      simp [encodeNoPad, decodeLoop, h1, h2, quantumBytes]
      omega
  | case3 a b =>
      intro hb si
      have ha : a < 256 := hb a (by simp)
      have hb2 : b < 256 := hb b (by simp)
      have h1 : decChar (encChar (a / 4)) = some (a / 4) :=
        decChar_encChar _ (by omega)
      have h2 : decChar (encChar (a % 4 * 16 + b / 16)) = some (a % 4 * 16 + b / 16) :=
        decChar_encChar _ (by omega)
      have h3 : decChar (encChar (b % 16 * 4)) = some (b % 16 * 4) :=
        decChar_encChar _ (by omega)
      simp [encodeNoPad, decodeLoop, h1, h2, h3, quantumBytes]
      omega
  | case4 a b c rest ih =>
      intro hb si
      have ha : a < 256 := hb a (by simp)
      have hb2 : b < 256 := hb b (by simp)
      have hc : c < 256 := hb c (by simp)
      have h1 : decChar (encChar (a / 4)) = some (a / 4) :=
        decChar_encChar _ (by omega)
      have h2 : decChar (encChar (a % 4 * 16 + b / 16)) = some (a % 4 * 16 + b / 16) :=
        decChar_encChar _ (by omega)
      have h3 : decChar (encChar (b % 16 * 4 + c / 64)) = some (b % 16 * 4 + c / 64) :=
        decChar_encChar _ (by omega)
      have h4 : decChar (encChar (c % 64)) = some (c % 64) :=
        decChar_encChar _ (by omega)
      have hrec := ih (fun x hx => hb x (by simp [hx])) (si + 1 + 1 + 1 + 1)
      simp [encodeNoPad, decodeLoop, h1, h2, h3, h4, hrec, quantumBytes]
      omega

/-- `DecodedLen` of the length of a no-padding encoding is the number of
encoded bytes. -/
theorem decodedLen_encodeNoPad (b : List Nat) :
    decodedLen (encodeNoPad b).length = b.length := by
  induction b using encodeNoPad.induct with
  | case1 => rfl
  | case2 a => simp [encodeNoPad, decodedLen]
  | case3 a b => simp [encodeNoPad, decodedLen]
  | case4 a b c rest ih =>
      simp [encodeNoPad, decodedLen] at ih ⊢
      omega

/-- Claim C5: for every byte sequence `b`, formatting the map
`{"base64": base64NoPad(b)}` yields exactly the string that formatting the
byte slice `b` directly yields (`0x` plus uppercase hex pairs, `0x` for
empty `b`); and for every string the no-padding base64 decoder rejects, the
formatter returns the decode error joined with the fixed context message —
never a partial or garbage string. -/
theorem claim_C5_base64_roundtrip :
    (∀ b : List Nat, (∀ x ∈ b, x < 256) →
      formatValue (.vmap [("base64",
          .interfaceElem (.bstring (String.mk (encodeNoPad b))))]) =
        .ok (formatBytes b) ∧
      formatValue (.vbytes b) = .ok (formatBytes b)) ∧
    (∀ (s : String) (e : GoErr), goBase64Decode s.data = .error e →
      formatValue (.vmap [("base64", .interfaceElem (.bstring s))]) =
        .error (.err (.joinErr (.fmtErr "unable to decode base64 value") e))) := by
  constructor
  · intro b hb
    refine ⟨?_, rfl⟩
    have hdec : goBase64Decode (String.mk (encodeNoPad b)).data = .ok b :=
      decodeLoop_encodeNoPad b hb 0
    have hlen : decodedLen (String.mk (encodeNoPad b)).data.length = b.length :=
      decodedLen_encodeNoPad b
    simp [formatValue, formatMap, mapLookup, elemIsZero, decodeBase64ToHex,
      hdec, hlen]
  · intro s e h
    simp [formatValue, formatMap, mapLookup, elemIsZero, decodeBase64ToHex, h]

/-- Witness for claim C5 at the bytes `[77, 97, 110]` (encoding `TWFu`,
blob `0x4D616E`) and at the rejected input `%`. -/
theorem claim_C5_witness :
    ((∀ x ∈ [77, 97, 110], x < 256) ∧
      formatValue (.vmap [("base64", .interfaceElem (.bstring "TWFu"))]) =
        .ok "0x4D616E") ∧
    (goBase64Decode "%".data = .error (corruptInputError 0) ∧
      formatValue (.vmap [("base64", .interfaceElem (.bstring "%"))]) =
        .error (.err (.joinErr (.fmtErr "unable to decode base64 value")
          (corruptInputError 0)))) := by
  refine ⟨⟨by decide, ?_⟩, ⟨rfl, ?_⟩⟩
  · exact (claim_C5_base64_roundtrip.1 [77, 97, 110] (by decide)).1
  · exact claim_C5_base64_roundtrip.2 "%" (corruptInputError 0) rfl

/-- `schemaLoop` over error-free two-column `(type, sql)` rows computes the
last `"table"` sql (or keeps the start value) and appends the non-table
sqls in order. -/
theorem schemaLoop_pairs :
    ∀ (ps : List (String × String)) (ct : String) (acc : List String),
      schemaLoop (ps.map schemaRowOf) ct acc =
        .ok (lastTableD ps ct, acc ++ nonTableSqls ps) := by
  intro ps
  induction ps with
  | nil => intro ct acc; simp [schemaLoop, lastTableD, nonTableSqls]
  | cons p rest ih =>
      intro ct acc
      by_cases h : p.1 = "table"
      · simp [schemaLoop, schemaRowOf, FormatData, formatData, formatValue,
          formatRawTypes, vstr, h, ih, lastTableD, nonTableSqls]
      · simp [schemaLoop, schemaRowOf, FormatData, formatData, formatValue,
          formatRawTypes, vstr, h, ih, lastTableD, nonTableSqls]

/-- `recordsLoop` over error-free rows that all format emits one INSERT
line per row, in order, and no error. -/
theorem recordsLoop_ok :
    ∀ (drs : List (List GoValue)) (tn : String),
      (∀ r ∈ drs, ∃ out, formatData r = .ok out) →
      recordsLoop (drs.map dataRowOf) tn =
        (drs.map (fun r => .emitLine (insertLineFor tn (fmtRowD r))), none) := by
  intro drs
  induction drs with
  | nil => intro tn _; rfl
  | cons r rest ih =>
      intro tn h
      obtain ⟨out, hout⟩ := h r (by simp)
      simp [recordsLoop, dataRowOf, FormatData, hout, insertLineFor, fmtRowD,
        ih tn (fun q hq => h q (by simp [hq]))]

/-- Under `servesTable`, `getTableSchema` runs exactly the schema query and
computes the create statement and deferred statements of the table. -/
theorem getTableSchema_serves (cfg : DbCmdConfig) (td : TableSpec)
    (h : servesTable cfg td) :
    getTableSchema cfg td.name =
      ([.execQuery (schemaQueryStr td.name)], .ok (createOf td, auxOf td)) := by
  simp [getTableSchema, h.1, recvStatementResult, schemaStatementOf,
    schemaLoop_pairs, createOf, auxOf]

/-- Under `servesTable`, `getTableRecords` runs exactly the data query and
returns the data statement result. -/
theorem getTableRecords_serves (cfg : DbCmdConfig) (td : TableSpec)
    (h : servesTable cfg td) :
    getTableRecords cfg td.name =
      ([.execQuery (recordsQueryStr td.name)], .ok (recordsStatementOf td)) := by
  simp [getTableRecords, h.2, recvStatementResult, recordsStatementOf]

/-- The master trace lemma: over a served, error-free database the table
loop leaves exactly one `tableBlockTrace` per table, in enumeration order,
and no error. -/
theorem tablesLoop_spec (cfg : DbCmdConfig) :
    ∀ tds : List TableSpec,
      (∀ td ∈ tds, servesTable cfg td) →
      (∀ td ∈ tds, ∀ r ∈ td.dataRows, ∃ out, formatData r = .ok out) →
      tablesLoop (tds.map (fun td => nameRowOf td.name)) cfg =
        ((tds.map tableBlockTrace).flatten, none) := by
  intro tds
  induction tds with
  | nil => intro _ _; rfl
  | cons td rest ih =>
      intro hserve hfmt
      have hgs := getTableSchema_serves cfg td (hserve td (by simp))
      have hgr := getTableRecords_serves cfg td (hserve td (by simp))
      have hrec := recordsLoop_ok td.dataRows td.name (hfmt td (by simp))
      have hrest := ih (fun t ht => hserve t (by simp [ht]))
        (fun t ht => hfmt t (by simp [ht]))
      have hrest2 :
          tablesLoop
              (rest.map (fun td =>
                (⟨[GoValue.vraw (RawVal.rstring td.name)], none⟩ : RowResult))) cfg =
            ((rest.map tableBlockTrace).flatten, none) := by
        simpa [nameRowOf, vstr] using hrest
      simp [tablesLoop, nameRowOf, FormatData, formatData, formatValue,
        formatRawTypes, vstr, hgs, hgr, hrest2, dumpTableRecords,
        recordsStatementOf, hrec, tableBlockTrace, insertsOf, Function.comp]

/-- `emittedLines` distributes over concatenation. -/
theorem emittedLines_append (a b : List DumpEvt) :
    emittedLines (a ++ b) = emittedLines a ++ emittedLines b := by
  simp [emittedLines]

/-- `emittedLines` of a list of printed lines is that list. -/
theorem emittedLines_map_emitLine (l : List String) :
    emittedLines (l.map .emitLine) = l := by
  induction l with
  | nil => rfl
  | cons s rest ih => simpa [emittedLines, List.filterMap_cons] using ih

/-- `emittedLines` distributes over flattening. -/
theorem emittedLines_flatten (l : List (List DumpEvt)) :
    emittedLines l.flatten = (l.map emittedLines).flatten := by
  induction l with
  | nil => rfl
  | cons a rest ih => simp [emittedLines_append, ih]

/-- The lines one table block prints: the create statement, the INSERT
lines, then the deferred statements. -/
theorem emittedLines_block (td : TableSpec) :
    emittedLines (tableBlockTrace td) =
      createOf td :: (insertsOf td ++ auxOf td) := by
  have h1 := emittedLines_map_emitLine (insertsOf td)
  have h2 := emittedLines_map_emitLine (auxOf td)
  simp [tableBlockTrace, emittedLines, List.filterMap_cons,
    List.filterMap_append] at h1 h2 ⊢
  rw [h1, h2]

/-- `lastTableD` over a concatenation threads its accumulator. -/
theorem lastTableD_append (xs ys : List (String × String)) (ct : String) :
    lastTableD (xs ++ ys) ct = lastTableD ys (lastTableD xs ct) := by
  induction xs generalizing ct with
  | nil => rfl
  | cons p rest ih => simp [lastTableD, ih]

/-- `lastTableD` is the accumulator when no pair has kind `"table"`. -/
theorem lastTableD_noTable (ys : List (String × String)) (ct : String)
    (h : ∀ p ∈ ys, p.1 ≠ "table") : lastTableD ys ct = ct := by
  induction ys generalizing ct with
  | nil => rfl
  | cons p rest ih =>
      have hp := h p (by simp)
      simp [lastTableD, hp, ih _ (fun q hq => h q (by simp [hq]))]

/-- `nonTableSqls` distributes over concatenation. -/
theorem nonTableSqls_append (xs ys : List (String × String)) :
    nonTableSqls (xs ++ ys) = nonTableSqls xs ++ nonTableSqls ys := by
  simp [nonTableSqls, List.filter_append]

/-- `nonTableSqls` keeps every pair when no pair has kind `"table"`. -/
theorem nonTableSqls_noTable (ps : List (String × String))
    (h : ∀ p ∈ ps, p.1 ≠ "table") : nonTableSqls ps = ps.map Prod.snd := by
  induction ps with
  | nil => rfl
  | cons p rest ih =>
      have hp := h p (by simp)
      simp [nonTableSqls, List.filter_cons, hp,
        ih (fun q hq => h q (by simp [hq]))]
      simpa [nonTableSqls] using ih (fun q hq => h q (by simp [hq]))

/-- Claim C2: over a served, error-free database whose schema query returns
exactly one `"table"` row per table, the dump prints, per table and in
enumeration order: the table's CREATE TABLE statement, then one INSERT
line per data row in row-stream order, then the auxiliary DDL statements in
the order the schema query returned them — never interleaved.  The second
conjunct ties `createOf`/`auxOf` to that reading: under the unique-table
decomposition, `createOf` is the unique `"table"` row's DDL and `auxOf`
lists the non-table rows' DDL in returned order. -/
theorem claim_C2_dump_emission_order (cfg : DbCmdConfig) (tds : List TableSpec)
    (cols : List String)
    (hserve : ∀ td ∈ tds, servesTable cfg td)
    (hfmt : ∀ td ∈ tds, ∀ r ∈ td.dataRows, ∃ out, formatData r = .ok out) :
    emittedLines
        (dumpTables ⟨none, cols, some (tds.map (fun td => nameRowOf td.name))⟩ cfg).1 =
      (tds.map (fun td => createOf td :: (insertsOf td ++ auxOf td))).flatten ∧
    ∀ td ∈ tds, ∀ (pre post : List (String × String)) (ct : String),
      td.schemaPairs = pre ++ ("table", ct) :: post →
      (∀ p ∈ pre, p.1 ≠ "table") → (∀ p ∈ post, p.1 ≠ "table") →
      createOf td = ct ∧ auxOf td = (pre ++ post).map Prod.snd := by
  constructor
  · have hmaster := tablesLoop_spec cfg tds hserve hfmt
    simp only [dumpTables, Option.getD_some, hmaster, emittedLines_flatten,
      List.map_map]
    exact congrArg List.flatten
      (List.map_congr_left (fun td _ => emittedLines_block td))
  · intro td _ pre post ct hdecomp hpre hpost
    constructor
    · simp only [createOf, hdecomp]
      rw [show ("table", ct) :: post = [("table", ct)] ++ post from rfl,
        ← List.append_assoc, lastTableD_append, lastTableD_noTable post _ hpost,
        lastTableD_append, lastTableD_noTable pre _ hpre]
      rfl
    · simp only [auxOf, hdecomp]
      rw [show ("table", ct) :: post = [("table", ct)] ++ post from rfl,
        ← List.append_assoc, nonTableSqls_append, nonTableSqls_append,
        nonTableSqls_noTable pre hpre, nonTableSqls_noTable post hpost]
      simp [nonTableSqls]

/-- The table used by the C2 witness: one table row, one index row, one
trigger row, two data rows. -/
def tdW : TableSpec :=
  ⟨"t", [("table", "CREATE TABLE t (x);"),
      ("index", "CREATE INDEX i ON t (x);"),
      ("trigger", "CREATE TRIGGER g AFTER INSERT ON t BEGIN SELECT 1; END;")],
    [[.vraw (.rint "int64" 1)], [.vnull]]⟩

/-- Witness for claim C2: a concrete table with an index and a trigger
dumps as CREATE TABLE, the two INSERTs in row order, then the index and
trigger DDL in returned order. -/
theorem claim_C2_witness :
    (∀ td ∈ [tdW], servesTable (cfgOf [tdW]) td) ∧
      emittedLines
          (dumpTables
            ⟨none, ["name"], some ([tdW].map (fun td => nameRowOf td.name))⟩
            (cfgOf [tdW])).1 =
        ["CREATE TABLE t (x);", "INSERT INTO t VALUES (1);",
          "INSERT INTO t VALUES (NULL);", "CREATE INDEX i ON t (x);",
          "CREATE TRIGGER g AFTER INSERT ON t BEGIN SELECT 1; END;"] := by
  have hserve : ∀ td ∈ [tdW], servesTable (cfgOf [tdW]) td := by
    intro td htd
    simp only [List.mem_singleton] at htd
    subst htd
    exact ⟨rfl, rfl⟩
  have hfmt : ∀ td ∈ [tdW], ∀ r ∈ td.dataRows, ∃ out, formatData r = .ok out := by
    intro td htd r hr
    simp only [List.mem_singleton] at htd
    subst htd
    simp only [tdW, List.mem_cons, List.not_mem_nil, or_false] at hr
    rcases hr with h | h
    · exact h ▸ ⟨["1"], rfl⟩
    · exact h ▸ ⟨["NULL"], rfl⟩
  exact ⟨hserve,
    (claim_C2_dump_emission_order (cfgOf [tdW]) [tdW] ["name"] hserve hfmt).1⟩

/-- First table of the C3 counterexample database. -/
def tdA : TableSpec := ⟨"t1", [("table", "CREATE TABLE t1 (a);")], []⟩

/-- Second table of the C3 counterexample database. -/
def tdB : TableSpec := ⟨"t2", [("table", "CREATE TABLE t2 (a);")], []⟩

/-- Claim C3 counterexample: on a two-table database the dump trace does
NOT read the whole table-name row stream before per-table work — the
second name is pulled only after the first table was fully processed, so
the claimed consume-fully-then-process behaviour is false on this
input. -/
theorem claim_C3_counterexample :
    ¬ (enumerationFirst
        (dumpTables ⟨none, ["name"], some [nameRowOf "t1", nameRowOf "t2"]⟩
          (cfgOf [tdA, tdB])).1 = true) := by
  decide

/-- Claim C3 (amended): the orchestrator receives the enumeration
statement result as a blocking step, but consumes its row stream lazily:
each table name is pulled and that table is fully processed (schema query,
DDL emission, data query, INSERT emission, deferred DDL emission) before
the next name is pulled.  The trace is a concatenation of per-table
blocks, each beginning with its name read and containing no other name
read. -/
theorem claim_C3_amended_enumeration_interleaved (cfg : DbCmdConfig)
    (tds : List TableSpec) (cols : List String)
    (hserve : ∀ td ∈ tds, servesTable cfg td)
    (hfmt : ∀ td ∈ tds, ∀ r ∈ td.dataRows, ∃ out, formatData r = .ok out) :
    (dumpTables ⟨none, cols, some (tds.map (fun td => nameRowOf td.name))⟩ cfg).1 =
      (tds.map tableBlockTrace).flatten ∧
    ∀ td ∈ tds,
      (tableBlockTrace td).head? = some (.readName (nameRowOf td.name)) ∧
      ∀ e ∈ (tableBlockTrace td).tail, isReadName e = false := by
  constructor
  · have hmaster := tablesLoop_spec cfg tds hserve hfmt
    simp [dumpTables, hmaster]
  · intro td _
    refine ⟨rfl, ?_⟩
    intro e he
    simp only [tableBlockTrace, List.tail_cons, List.mem_cons, List.mem_append,
      List.mem_map] at he
    rcases he with h | h | h | ⟨a, _, h⟩ | ⟨a, _, h⟩ <;> subst h <;> rfl

/-- Witness for the amended claim C3 at a concrete one-table database. -/
theorem claim_C3_amended_witness :
    (∀ td ∈ [tdA], servesTable (cfgOf [tdA]) td) ∧
      (dumpTables ⟨none, ["name"], some ([tdA].map (fun td => nameRowOf td.name))⟩
          (cfgOf [tdA])).1 =
        ([tdA].map tableBlockTrace).flatten := by
  have hserve : ∀ td ∈ [tdA], servesTable (cfgOf [tdA]) td := by
    intro td htd
    simp only [List.mem_singleton] at htd
    subst htd
    exact ⟨rfl, rfl⟩
  have hfmt : ∀ td ∈ [tdA], ∀ r ∈ td.dataRows, ∃ out, formatData r = .ok out := by
    intro td htd r hr
    simp only [List.mem_singleton] at htd
    subst htd
    simp [tdA] at hr
  exact ⟨hserve,
    (claim_C3_amended_enumeration_interleaved (cfgOf [tdA]) [tdA] ["name"]
      hserve hfmt).1⟩

/-- Claim C9: the exactly-one-CREATE-TABLE shape of the schema result is
not enforced.  (1) When no schema row has kind `"table"`, the dump emits an
empty line in place of the CREATE TABLE statement and still emits the
table's INSERTs and auxiliary DDL.  (2) When several rows have kind
`"table"`, `getTableSchema` returns the sql of the LAST such row as the
create statement (together with the non-table sqls in order). -/
theorem claim_C9_schema_shape_not_enforced :
    (∀ (cfg : DbCmdConfig) (n : String) (ps : List (String × String))
        (drs : List (List GoValue)) (cols : List String),
      servesTable cfg ⟨n, ps, drs⟩ →
      (∀ p ∈ ps, p.1 ≠ "table") →
      (∀ r ∈ drs, ∃ out, formatData r = .ok out) →
      emittedLines (dumpTables ⟨none, cols, some [nameRowOf n]⟩ cfg).1 =
        "" :: (drs.map (fun r => insertLineFor n (fmtRowD r)) ++ ps.map Prod.snd)) ∧
    (∀ (cfg : DbCmdConfig) (n : String) (xs ys : List (String × String))
        (ct : String) (drs : List (List GoValue)),
      servesTable cfg ⟨n, xs ++ ("table", ct) :: ys, drs⟩ →
      (∀ p ∈ ys, p.1 ≠ "table") →
      (getTableSchema cfg n).2 =
        .ok (ct, nonTableSqls (xs ++ ("table", ct) :: ys))) := by
  constructor
  · intro cfg n ps drs cols hserve hnt hfmt
    have hserve1 : ∀ td ∈ [(⟨n, ps, drs⟩ : TableSpec)], servesTable cfg td := by
      intro td htd
      simp only [List.mem_singleton] at htd
      subst htd
      exact hserve
    have hfmt1 : ∀ td ∈ [(⟨n, ps, drs⟩ : TableSpec)],
        ∀ r ∈ td.dataRows, ∃ out, formatData r = .ok out := by
      intro td htd
      simp only [List.mem_singleton] at htd
      subst htd
      exact hfmt
    have hmaster := tablesLoop_spec cfg [⟨n, ps, drs⟩] hserve1 hfmt1
    simp only [List.map_cons, List.map_nil] at hmaster
    simp [dumpTables, hmaster, emittedLines_append, emittedLines_block, createOf,
      auxOf, insertsOf, lastTableD_noTable ps "" hnt, nonTableSqls_noTable ps hnt]
  · intro cfg n xs ys ct drs hserve hnt
    have h := getTableSchema_serves cfg ⟨n, xs ++ ("table", ct) :: ys, drs⟩ hserve
    rw [h]
    simp only [createOf, auxOf, Except.ok.injEq, Prod.mk.injEq]
    refine ⟨?_, trivial⟩
    rw [show ("table", ct) :: ys = [("table", ct)] ++ ys from rfl,
      ← List.append_assoc, lastTableD_append, lastTableD_noTable ys _ hnt,
      lastTableD_append]
    rfl

/-- The table used by the C9 witness: no `"table"` schema row, one index
row, one data row. -/
def tdN : TableSpec := ⟨"t0", [("index", "CREATE INDEX j ON t0 (y);")], [[.vnull]]⟩

/-- Witness for claim C9 at a concrete table whose schema query returns no
`"table"` row: the dump emits an empty create line, the INSERT, then the
index DDL. -/
theorem claim_C9_witness :
    servesTable (cfgOf [tdN]) tdN ∧
      emittedLines
          (dumpTables ⟨none, ["name"], some [nameRowOf "t0"]⟩ (cfgOf [tdN])).1 =
        ["", "INSERT INTO t0 VALUES (NULL);", "CREATE INDEX j ON t0 (y);"] := by
  have hs : servesTable (cfgOf [tdN]) tdN := ⟨rfl, rfl⟩
  refine ⟨hs, ?_⟩
  exact claim_C9_schema_shape_not_enforced.1 (cfgOf [tdN]) "t0"
    [("index", "CREATE INDEX j ON t0 (y);")] [[.vnull]] ["name"] hs (by decide)
    (by
      intro r hr
      simp only [List.mem_singleton] at hr
      exact hr ▸ ⟨["NULL"], rfl⟩)

end LibsqlShell






